import Mathlib

/-!
Shallow embedding of `zeek_halfduplex_analyzer.py`, a single-pass batch
analyzer of Zeek connection logs that identifies half-duplex TCP
connections.  The pandas DataFrame is modelled as a `List ConnRecord`;
pandas column filters (`df.loc[...]`) become `List.filter`; the pandas
string methods used by the script (`str.lstrip`, `str.isupper`,
`str.islower`, `str.len`) are embedded below following Python semantics
restricted to the ASCII alphabet the history column uses; nullable cells
(pandas `NaN`/`NA`) are `Option`; Python `float` ratios are modelled over
`ℚ` (the numerators and denominators of the report are integer row counts).
Python string comparison (`<`) is code-point lexicographic, which is
exactly the Lean `String` order.
-/

/-- One parsed log row restricted to the nine columns the script loads
(`usecols` at line 50 of the source).  `proto`, `history` and `peer` are
`object` columns that may hold `NaN`; the ports are nullable `Int64`; the
locality flags are tri-state booleans (`T`/`F`/`-`). -/
structure ConnRecord where
  orig_h : String
  orig_p : Option Nat
  resp_h : String
  resp_p : Option Nat
  proto : Option String
  history : Option String
  local_orig : Option Bool
  local_resp : Option Bool
  peer : Option String
deriving DecidableEq

/-- Function `zero_division_ok` (source lines 21-22): `numerator / denominator` when
the denominator is truthy (nonzero), `0` otherwise. -/
def zero_division_ok (numerator denominator : ℚ) : ℚ :=
  if denominator ≠ 0 then numerator / denominator else 0

/-- The `type_mapping` dict (source lines 8-18), as a partial lookup:
`none` models the `KeyError` raised at line 46 for an unsupported declared
type. -/
def type_mapping (t : String) : Option String :=
  if t == "time" then some ("datetime64")
  else if t == "string" then some ("object")
  else if t == "bool" then some ("bool")
  else if t == "addr" then some ("object")
  else if t == "port" then some ("Int64")
  else if t == "enum" then some ("object")
  else if t == "interval" then some ("float64")
  else if t == "count" then some ("Int64")
  else if t == "set[string]" then some ("object")
  else none

/-- The schema-resolution loop (source lines 44-46):
`for col, t in zip(col_names, col_types): converted[col] = type_mapping[t]`.
`zip` pairs the two token lists positionally up to the shorter one; the
only failure path is `type_mapping[t]` raising `KeyError` (`none` here). -/
def resolveSchema : List String → List String → Option (List (String × String))
  | col :: cols, t :: ts =>
    match type_mapping t with
    | some v => (resolveSchema cols ts).map (fun rest => (col, v) :: rest)
    | none => none
  | _, _ => some []

/-- Funnel stage 1 (source line 59): keep rows where `proto` equals `tcp`.
A `NaN` proto compares unequal, so it is dropped, matching pandas. -/
def stage1 (df : List ConnRecord) : List ConnRecord :=
  df.filter (fun r => r.proto == some ("tcp"))

/-- Funnel stage 2 (source line 63): keep rows where both locality flags
equal `True`; `NaN`/`False` flags fail the comparison and are dropped. -/
def stage2 (df : List ConnRecord) : List ConnRecord :=
  df.filter (fun r => r.local_orig == some true && r.local_resp == some true)

/-- Counter `tcp_lines` (source line 66): the row count taken after BOTH the
protocol filter and the locality filter have run. -/
def tcp_lines (df : List ConnRecord) : Nat :=
  (stage2 (stage1 df)).length

/-- Pandas `lstrip` with a caret argument on one cell (source line 69):
remove every leading caret character. -/
def lstripCaret (s : String) : String :=
  ⟨s.data.dropWhile (· == '^')⟩

/-- Funnel stage 3 (source line 69): `lstrip` the caret off the history
column, a no-op on `NaN` cells. -/
def stage3 (df : List ConnRecord) : List ConnRecord :=
  df.map (fun r => { r with history := r.history.map lstripCaret })

/-- Funnel stage 4 (source line 72): keep rows with `str.len() > 1`;
`str.len()` of `NaN` is `NaN`, and `NaN > 1` is false, so nulls drop. -/
def stage4 (df : List ConnRecord) : List ConnRecord :=
  df.filter (fun r => match r.history with
    | some s => decide (s.length > 1)
    | none => false)

/-- Counter `analyzed_lines` (source line 74): rows surviving stages 1-4. -/
def analyzed_lines (df : List ConnRecord) : Nat :=
  (stage4 (stage3 (stage2 (stage1 df)))).length

/-- A cased character in the sense of the Python `isupper`/`islower`,
restricted to the ASCII letters the history column uses. -/
def isCasedChar (c : Char) : Bool :=
  c.isUpper || c.isLower

/-- Python `isupper`: at least one cased character, and no cased
character is lowercase.  Uncased characters (digits, punctuation) are
ignored, so e.g. `"A1"` is upper. -/
def pyIsUpper (s : String) : Bool :=
  s.data.any isCasedChar && s.data.all (fun c => !c.isLower)

/-- Python `islower`: at least one cased character, and no cased
character is uppercase. -/
def pyIsLower (s : String) : Bool :=
  s.data.any isCasedChar && s.data.all (fun c => !c.isUpper)

/-- The half-duplex predicate on one history cell (source line 76):
`isupper OR islower`; `NaN` cells fail both. -/
def halfduplexHist (h : Option String) : Bool :=
  match h with
  | some s => pyIsUpper s || pyIsLower s
  | none => false

/-- Funnel stage 5 (source line 76): keep rows whose stripped history is
`isupper` or `islower`. -/
def stage5 (df : List ConnRecord) : List ConnRecord :=
  df.filter (fun r => halfduplexHist r.history)

/-- The half-duplex candidate set: the survivors of the whole funnel. -/
def halfduplexDF (df : List ConnRecord) : List ConnRecord :=
  stage5 (stage4 (stage3 (stage2 (stage1 df))))

/-- Counter `halfduplex_lines` (source line 78). -/
def halfduplex_lines (df : List ConnRecord) : Nat :=
  (halfduplexDF df).length

/-- Counter `lowercase_lines` (source line 91): candidates whose history is
`islower`. -/
def lowercase_lines (df : List ConnRecord) : Nat :=
  ((halfduplexDF df).filter (fun r => match r.history with
    | some s => pyIsLower s
    | none => false)).length

/-- Counter `uppercase_lines` (source line 92): candidates whose history is
`isupper`. -/
def uppercase_lines (df : List ConnRecord) : Nat :=
  ((halfduplexDF df).filter (fun r => match r.history with
    | some s => pyIsUpper s
    | none => false)).length

/-- The unordered IP-pair key (source lines 109-112): the lexicographically
smaller address first, joined by a hyphen. -/
def ip_pair (r : ConnRecord) : String :=
  if r.orig_h < r.resp_h
  then r.orig_h ++ "-" ++ r.resp_h
  else r.resp_h ++ "-" ++ r.orig_h

/-- A record with origin and responder endpoints exchanged, as in the
order-independence property for the pair ranking. -/
def swapEndpoints (r : ConnRecord) : ConnRecord :=
  { r with orig_h := r.resp_h, orig_p := r.resp_p,
           resp_h := r.orig_h, resp_p := r.orig_p }

/-- The `str(port)` rendering of a nullable `Int64` cell, as Python makes it inside
the identifier lambdas (a missing port prints as pandas `NA`). -/
def portStr (p : Option Nat) : String :=
  match p with
  | some n => toString n
  | none => "<NA>"

/-- Identifier `conn_id` (source lines 161-163): `origH/origP-respH/respP`. -/
def conn_id (r : ConnRecord) : String :=
  r.orig_h ++ "/" ++ portStr r.orig_p ++ "-" ++ r.resp_h ++ "/" ++ portStr r.resp_p

/-- Identifier `reverse_id` (source lines 166-168): `respH/respP-origH/origP`. -/
def reverse_id (r : ConnRecord) : String :=
  r.resp_h ++ "/" ++ portStr r.resp_p ++ "-" ++ r.orig_h ++ "/" ++ portStr r.orig_p

/-- Identifier `flow_id` (source lines 171-172): the lexicographically smaller of
`conn_id` and `reverse_id`. -/
def flow_id (r : ConnRecord) : String :=
  if conn_id r < reverse_id r then conn_id r else reverse_id r

/-- The inner self-join `pd.merge` of the table with itself, left key
`conn_id`, right key `reverse_id` (source line 175): all pairs `(x, y)` of rows with
`conn_id x = reverse_id y`, left rows in order, matching right rows listed
for each. -/
def mergedRows (df : List ConnRecord) : List (ConnRecord × ConnRecord) :=
  df.flatMap (fun x =>
    (df.filter (fun y => conn_id x == reverse_id y)).map (fun y => (x, y)))

/-- The canonical-leg filter (source line 178): keep join rows where the
`conn_id` of the left record equals its own `flow_id`. -/
def retainedPairs (df : List ConnRecord) : List (ConnRecord × ConnRecord) :=
  (mergedRows df).filter (fun p => conn_id p.1 == flow_id p.1)

/-- The reported paired-connection count (source line 182):
`merged_df.shape[0] * 2`. -/
def paired_count (df : List ConnRecord) : Nat :=
  (retainedPairs df).length * 2

/-- The `history_x` column fed to the paired-history ranking (source
lines 186-187): one entry per retained join row. -/
def pairedHistories (df : List ConnRecord) : List (Option String) :=
  (retainedPairs df).map (fun p => p.1.history)

/-- Python string split on hyphen, over a character list: split at every hyphen,
keeping empty pieces, so `"a-b-c"` gives three pieces and the empty string
gives one empty piece. -/
def splitDash : List Char → List (List Char)
  | [] => [[]]
  | c :: cs =>
    if c = '-' then [] :: splitDash cs
    else match splitDash cs with
      | [] => [[c]]
      | p :: ps => (c :: p) :: ps

/-- Python `int(...)`/`pd.to_numeric` on the nonnegative decimal tokens the
process field holds: all-digit nonempty tokens parse, others raise
(`none`). -/
def parseNat (l : List Char) : Option Nat :=
  if l ≠ [] ∧ l.all (·.isDigit) then
    some (l.foldl (fun n c => n * 10 + (c.toNat - 48)) 0)
  else none

/-- Token 1 of the hyphen-split peer cell (source lines 121-122): the NIC label.
On a candidate row `peer` must be a string with at least two hyphens, else
Python raises; the raising accesses are modelled as `none`. -/
def nicOf (r : ConnRecord) : Option String :=
  r.peer.bind (fun p => ((splitDash p.data).get? 1).map (fun l => ⟨l⟩))

/-- Token 2 of the hyphen-split peer cell, via `pd.to_numeric`
(source lines 123-125):
the process number; a missing or non-numeric token raises (`none`). -/
def procOf (r : ConnRecord) : Option Nat :=
  r.peer.bind (fun p => ((splitDash p.data).get? 2).bind parseNat)

/-- The distinct NIC values among the candidate rows: the row labels of
the groupby of nic and process, counted and unstacked
(source line 128). -/
def distinctNics (cand : List ConnRecord) : List (Option String) :=
  (cand.map nicOf).dedup

/-- The distinct process values among the candidate rows: the column
labels of the unstacked groupby, before the `Total` column is appended. -/
def distinctProcs (cand : List ConnRecord) : List (Option Nat) :=
  (cand.map procOf).dedup

/-- The shape read `num_nics, num_procs = nics_df.shape` (source line 132), taken AFTER
the `Total` row-sum column assignment (line 129) has appended one extra
column: the column count is the number of distinct process values plus
one. -/
def nics_df_shape (cand : List ConnRecord) : Nat × Nat :=
  ((distinctNics cand).length, (distinctProcs cand).length + 1)

/-- The even-split per-process reference figure (source lines 143-144):
`zero_division_ok(halfduplex_lines, num_nics * num_procs)`, where the
argument is the half-duplex candidate set, whose length is
`halfduplex_lines`. -/
def evenSplitByProcess (cand : List ConnRecord) : ℚ :=
  zero_division_ok (cand.length : ℚ)
    ((((nics_df_shape cand).1 * (nics_df_shape cand).2 : ℕ)) : ℚ)

/-- The even-split per-NIC reference figure (source line 145):
`zero_division_ok(halfduplex_lines, num_nics)`. -/
def evenSplitByNic (cand : List ConnRecord) : ℚ :=
  zero_division_ok (cand.length : ℚ) (((nics_df_shape cand).1 : ℕ) : ℚ)

/-- ASCII uppercase and lowercase ranges are disjoint, so no character
passes both case tests. -/
lemma char_not_upper_and_lower (c : Char) :
    ¬(c.isUpper = true ∧ c.isLower = true) := by
  simp only [Char.isUpper, Char.isLower, Bool.and_eq_true, decide_eq_true_eq]
  rintro ⟨⟨h1, h2⟩, h3, h4⟩
  exact absurd (UInt32.le_trans h3 h2) (by decide)

/-- No string is simultaneously `isupper` and `islower`: the shared
witness of a cased character would have to be both cases at once. -/
lemma pyIsUpper_pyIsLower_disjoint (s : String) :
    ¬(pyIsUpper s = true ∧ pyIsLower s = true) := by
  simp only [pyIsUpper, pyIsLower, Bool.and_eq_true, List.any_eq_true,
    List.all_eq_true, Bool.not_eq_true']
  rintro ⟨⟨⟨c, hc, hcased⟩, hupper⟩, -, hlower⟩
  have h1 := hupper c hc
  have h2 := hlower c hc
  simp only [isCasedChar, Bool.or_eq_true] at hcased
  rcases hcased with h | h
  · simp [h] at h2
  · simp [h] at h1

/-- A filter by a disjunction of two disjoint predicates splits: the
survivors satisfying the first predicate and those satisfying the second
together exhaust the filtered list. -/
lemma length_filter_or_disjoint {α : Type} (p q : α → Bool)
    (h : ∀ x, ¬(p x = true ∧ q x = true)) (l : List α) :
    (l.filter (fun x => p x || q x)).length
      = ((l.filter (fun x => p x || q x)).filter q).length
        + ((l.filter (fun x => p x || q x)).filter p).length := by
  induction l with
  | nil => rfl
  | cons a l ih =>
    cases hp : p a <;> cases hq : q a
    · rw [List.filter_cons, if_neg (by rw [hp, hq]; simp)]
      exact ih
    · rw [List.filter_cons, if_pos (by rw [hp, hq]; rfl),
        List.filter_cons, if_pos hq, List.filter_cons,
        if_neg (by rw [hp]; simp)]
      simp only [List.length_cons]
      omega
    · rw [List.filter_cons, if_pos (by rw [hp, hq]; rfl),
        List.filter_cons, if_neg (by rw [hq]; simp), List.filter_cons,
        if_pos hp]
      simp only [List.length_cons]
      omega
    · exact absurd ⟨hp, hq⟩ (h a)

/-- C1: after stage 5 the all-lowercase and all-uppercase predicates
partition the survivor set with no overlap and no gap, so for every input
record set `halfduplex_lines = lowercase_lines + uppercase_lines`
(the assertion at source line 100 always holds). -/
theorem halfduplex_partition_invariant (df : List ConnRecord) :
    halfduplex_lines df = lowercase_lines df + uppercase_lines df := by
  unfold halfduplex_lines lowercase_lines uppercase_lines halfduplexDF stage5
  have hdisj : ∀ r : ConnRecord,
      ¬((fun r : ConnRecord => match r.history with
          | some s => pyIsUpper s
          | none => false) r = true ∧
        (fun r : ConnRecord => match r.history with
          | some s => pyIsLower s
          | none => false) r = true) := by
    intro r
    cases hv : r.history with
    | none => simp [hv]
    | some s =>
      simp only [hv]
      exact pyIsUpper_pyIsLower_disjoint s
  have hfil : List.filter (fun r => halfduplexHist r.history)
        (stage4 (stage3 (stage2 (stage1 df))))
      = List.filter (fun r =>
          (match r.history with
            | some s => pyIsUpper s
            | none => false)
          || (match r.history with
            | some s => pyIsLower s
            | none => false))
        (stage4 (stage3 (stage2 (stage1 df)))) := by
    apply List.filter_congr
    intro r _
    cases r.history <;> rfl
  rw [hfil]
  exact length_filter_or_disjoint
    (fun r : ConnRecord => match r.history with
      | some s => pyIsUpper s
      | none => false)
    (fun r : ConnRecord => match r.history with
      | some s => pyIsLower s
      | none => false)
    hdisj (stage4 (stage3 (stage2 (stage1 df))))

/-- A TCP row whose locality flags are not both true: it survives stage 1
but not stage 2. -/
def recOnlyTcp : ConnRecord :=
  ⟨"10.0.0.1", some 1111, "93.184.216.34", some 80, some ("tcp"),
   some ("Sh"), some true, some false, some ("worker-eth0-1")⟩

/-- C2 counterexample: `tcp_lines` is NOT the count of rows surviving
stage 1 alone.  For a TCP row whose responder is not local, stage 1 keeps
the row but `tcp_lines` (read after the locality filter) is `0`. -/
theorem tcp_lines_stage1_cex :
    tcp_lines [recOnlyTcp] = 0 ∧ (stage1 [recOnlyTcp]).length = 1 ∧
      ¬ tcp_lines [recOnlyTcp] = (stage1 [recOnlyTcp]).length := by
  refine ⟨by decide, by decide, by decide⟩

/-- C2 amended: `tcp_lines` counts the rows that pass the protocol filter
AND the locality filter, i.e. the survivors of stages 1 and 2 together. -/
theorem tcp_lines_counts_stage1_and_stage2 (df : List ConnRecord) :
    tcp_lines df = (df.filter (fun r =>
      r.proto == some ("tcp")
        && (r.local_orig == some true && r.local_resp == some true))).length := by
  unfold tcp_lines stage2 stage1
  rw [List.filter_filter]
  congr 1
  apply List.filter_congr
  intro x _
  rw [Bool.and_comm]

/-- A record whose stripped history `"A1"` holds a non-alphabetic
character yet passes the case test. -/
def recNonAlpha : ConnRecord :=
  ⟨"10.0.0.1", some 1111, "10.0.0.2", some 80, some ("tcp"),
   some ("A1"), some true, some true, some ("worker-eth0-1")⟩

/-- C3 counterexample: stage 5 keeps the history `"A1"` (length 2, passes
`isupper` because its only cased character is uppercase) even though it
contains a non-alphabetic character, so rows with non-alphabetic history
characters are NOT all excluded. -/
theorem stage5_keeps_nonalpha_cex :
    halfduplexHist (some ("A1")) = true ∧
      stage5 [recNonAlpha] = [recNonAlpha] ∧
      ¬(∀ c ∈ ("A1" : String).data, c.isUpper = true) ∧
      ¬(∀ c ∈ ("A1" : String).data, c.isLower = true) := by
  refine ⟨by decide, by decide, by decide, by decide⟩

/-- C3 amended: a non-null stripped history survives stage 5 iff it holds
at least one cased (alphabetic) character and its cased characters are
either all uppercase or all lowercase; non-alphabetic characters are
ignored by the two case tests, not excluded. -/
theorem halfduplexHist_characterization (s : String) :
    halfduplexHist (some s) = true ↔
      (∃ c ∈ s.data, isCasedChar c = true) ∧
        ((∀ c ∈ s.data, isCasedChar c = true → c.isUpper = true) ∨
         (∀ c ∈ s.data, isCasedChar c = true → c.isLower = true)) := by
  simp only [halfduplexHist, pyIsUpper, pyIsLower, Bool.or_eq_true,
    Bool.and_eq_true, List.any_eq_true, List.all_eq_true, Bool.not_eq_true']
  constructor
  · rintro (⟨hex, hall⟩ | ⟨hex, hall⟩)
    · refine ⟨hex, Or.inl ?_⟩
      intro c hc hcase
      have hl := hall c hc
      simp only [isCasedChar, Bool.or_eq_true] at hcase
      rcases hcase with h | h
      · exact h
      · simp [h] at hl
    · refine ⟨hex, Or.inr ?_⟩
      intro c hc hcase
      have hu := hall c hc
      simp only [isCasedChar, Bool.or_eq_true] at hcase
      rcases hcase with h | h
      · simp [h] at hu
      · exact h
  · rintro ⟨hex, hall | hall⟩
    · left
      refine ⟨hex, ?_⟩
      intro c hc
      by_cases hcase : isCasedChar c = true
      · have hu := hall c hc hcase
        cases hl : c.isLower
        · rfl
        · exact absurd ⟨hu, hl⟩ (char_not_upper_and_lower c)
      · simp only [isCasedChar, Bool.or_eq_true, not_or,
          Bool.not_eq_true] at hcase
        exact hcase.2
    · right
      refine ⟨hex, ?_⟩
      intro c hc
      by_cases hcase : isCasedChar c = true
      · have hl := hall c hc hcase
        cases hu : c.isUpper
        · rfl
        · exact absurd ⟨hu, hl⟩ (char_not_upper_and_lower c)
      · simp only [isCasedChar, Bool.or_eq_true, not_or,
          Bool.not_eq_true] at hcase
        exact hcase.1

/-- The head of a caret-stripped character list is never a caret. -/
lemma head_dropWhile_caret_ne (l : List Char) :
    ∀ c, (l.dropWhile (· == '^')).head? = some c → ¬ c = '^' := by
  induction l with
  | nil =>
    intro c hc
    simp at hc
  | cons a l ih =>
    intro c hc
    by_cases h : a = '^'
    · rw [List.dropWhile_cons, if_pos (by simp [h])] at hc
      exact ih c hc
    · rw [List.dropWhile_cons, if_neg (by simp [h])] at hc
      simp only [List.head?_cons, Option.some.injEq] at hc
      rw [← hc]
      exact h

/-- C4 counterexample: stage 3 strips MORE than a single leading caret:
on the history `"^^ab"` the output is `"ab"`, not `"^ab"` (nor the
untouched input), so an input beginning with two carets does not keep the
second one. -/
theorem lstrip_single_caret_cex :
    lstripCaret ("^^ab") = "ab" ∧ ¬("ab" : String) = "^ab" ∧
      ¬("ab" : String) = "^^ab" := by
  refine ⟨by decide, by decide, by decide⟩

/-- C4 amended: stage 3 removes the whole maximal run of leading carets
from a history string (`lstrip` strips every leading caret): the input
splits as a block of carets followed by the output, and the output never
starts with a caret. -/
theorem lstripCaret_strips_leading_run (s : String) :
    s.data = List.replicate (s.data.takeWhile (· == '^')).length '^'
        ++ (lstripCaret s).data ∧
      ∀ c, (lstripCaret s).data.head? = some c → ¬ c = '^' := by
  constructor
  · conv_lhs => rw [← List.takeWhile_append_dropWhile (· == '^') s.data]
    congr 1
    apply List.eq_replicate_of_mem
    intro b hb
    have h := List.mem_takeWhile_imp hb
    exact beq_iff_eq.mp h
  · exact head_dropWhile_caret_ne s.data

/-- C5: the ratio helper returns `n / d` for a nonzero denominator and
exactly `0` for a zero denominator; it is a total function, so no error
(and over `ℚ` no NaN) can arise. -/
theorem zero_division_ok_spec (n d : ℚ) :
    (¬ d = 0 → zero_division_ok n d = n / d) ∧
      (d = 0 → zero_division_ok n d = 0) := by
  constructor <;> intro h <;> simp [zero_division_ok, h]

/-- Witness for C5 at `3 / 2` and `3 / 0`. -/
theorem zero_division_ok_spec_witness :
    zero_division_ok 3 2 = 3 / 2 ∧ zero_division_ok 3 0 = 0 :=
  ⟨(zero_division_ok_spec 3 2).1 (by norm_num),
   (zero_division_ok_spec 3 0).2 rfl⟩

/-- C6 counterexample: schema resolution does NOT fail on a name/type
token-count mismatch.  With two field names and one type name it silently
succeeds, pairing only the common prefix. -/
theorem resolveSchema_mismatch_cex :
    resolveSchema ["a", "b"] ["string"] = some [("a", "object")] ∧
      ¬(["a", "b"] : List String).length = (["string"] : List String).length := by
  refine ⟨by decide, by decide⟩

/-- C6 amended: whenever every declared type among the positionally paired
prefix is supported, schema resolution succeeds (no abort), and the result
pairs exactly the common prefix of the two token lists — a count mismatch
is silently truncated, never reported. -/
theorem resolveSchema_truncates (cols ts : List String)
    (h : ∀ t ∈ ts.take cols.length, (type_mapping t).isSome = true) :
    ∃ l, resolveSchema cols ts = some l ∧
      l.length = min cols.length ts.length := by
  induction cols generalizing ts with
  | nil => exact ⟨[], rfl, by simp⟩
  | cons c cols ih =>
    cases ts with
    | nil => exact ⟨[], rfl, by simp⟩
    | cons t ts =>
      have ht : (type_mapping t).isSome = true := by
        apply h
        rw [List.length_cons, List.take_succ_cons]
        exact List.mem_cons_self t _
      obtain ⟨v, hv⟩ := Option.isSome_iff_exists.mp ht
      obtain ⟨l, hl, hlen⟩ := ih ts (by
        intro u hu
        apply h
        rw [List.length_cons, List.take_succ_cons]
        exact List.mem_cons_of_mem t hu)
      refine ⟨(c, v) :: l, ?_, ?_⟩
      · simp [resolveSchema, hv, hl]
      · simp only [List.length_cons, hlen, Nat.succ_min_succ]
  
/-- Witness for C6 amended at a two-name, one-type header. -/
theorem resolveSchema_truncates_witness :
    ∃ l, resolveSchema ["a", "b"] ["string"] = some l ∧
      l.length = min (["a", "b"] : List String).length
        (["string"] : List String).length :=
  resolveSchema_truncates ["a", "b"] ["string"] (by decide)

/-- C7: the IP-pair key is order-independent — exchanging the origin and
responder endpoints of a record yields the same key, so both directions of
a flow land on the same ranking entry. -/
theorem ip_pair_swap_invariant (r : ConnRecord) :
    ip_pair (swapEndpoints r) = ip_pair r := by
  simp only [ip_pair, swapEndpoints]
  rcases lt_trichotomy r.orig_h r.resp_h with h | h | h
  · rw [if_neg (asymm h), if_pos h]
  · rw [h]
  · rw [if_pos h, if_neg (asymm h)]

/-- C10: a candidate whose origin endpoint equals its own responder
endpoint has `conn_id = reverse_id`, so the self-join matches the record
with itself, the canonical filter keeps that self-match, and this single
record alone contributes one retained join row, a reported paired count of
2, and one entry to the paired history ranking. -/
theorem pairing_self_match (r : ConnRecord)
    (h1 : r.orig_h = r.resp_h) (h2 : r.orig_p = r.resp_p) :
    (retainedPairs [r]).length = 1 ∧ paired_count [r] = 2 ∧
      pairedHistories [r] = [r.history] := by
  have hid : conn_id r = reverse_id r := by
    unfold conn_id reverse_id
    rw [h1, h2]
  have hflow : flow_id r = conn_id r := by
    unfold flow_id
    rw [hid]
    simp
  have hret : retainedPairs [r] = [(r, r)] := by
    unfold retainedPairs mergedRows
    simp [hflow, hid]
  refine ⟨?_, ?_, ?_⟩
  · rw [hret]
    rfl
  · unfold paired_count
    rw [hret]
    rfl
  · unfold pairedHistories
    rw [hret]
    rfl

/-- A candidate connection from an address-port pair to itself. -/
def recSelf : ConnRecord :=
  ⟨"10.0.0.7", some 53, "10.0.0.7", some 53, some ("tcp"),
   some ("sa"), some true, some true, some ("worker-eth0-1")⟩

/-- Witness for C10 at a concrete self-directed candidate. -/
theorem pairing_self_match_witness :
    (retainedPairs [recSelf]).length = 1 ∧ paired_count [recSelf] = 2 ∧
      pairedHistories [recSelf] = [recSelf.history] :=
  pairing_self_match recSelf rfl rfl

/-- Summing the indicator of one value over a list counts its
occurrences. -/
lemma sum_map_indicator {α : Type} [DecidableEq α] (l : List α) (w : α) :
    (l.map (fun x => if x = w then 1 else 0)).sum = l.count w := by
  induction l with
  | nil => rfl
  | cons a l ih =>
    rw [List.map_cons, List.sum_cons, ih, List.count_cons]
    by_cases h : a = w <;> simp [h, Nat.add_comm]

/-- C8: for a candidate set holding exactly one pair of distinct
mirror-identifier candidates (each occurring once, and no other join
match anywhere), the self-join plus canonical filter retains exactly one
join row — the leg whose directional identifier is the lexicographically
smaller — the reported paired count is 2, and the pair contributes
exactly one record to the paired history ranking. -/
theorem pairing_mirror_pair (df : List ConnRecord) (a b : ConnRecord)
    (ha : a ∈ df) (hb : b ∈ df) (hab : ¬ a = b)
    (m1 : b.orig_h = a.resp_h) (m2 : b.orig_p = a.resp_p)
    (m3 : b.resp_h = a.orig_h) (m4 : b.resp_p = a.orig_p)
    (hca : df.count a = 1) (hcb : df.count b = 1)
    (uniq : ∀ x ∈ df, ∀ y ∈ df, conn_id x = reverse_id y →
      (x = a ∧ y = b) ∨ (x = b ∧ y = a)) :
    (retainedPairs df).length = 1 ∧ paired_count df = 2 ∧
      (pairedHistories df).length = 1 ∧
      ∀ p ∈ retainedPairs df, conn_id p.1 = min (conn_id a) (conn_id b) := by
  have rab : reverse_id a = conn_id b := by
    unfold reverse_id conn_id
    rw [m1, m2, m3, m4]
  have rba : reverse_id b = conn_id a := by
    unfold reverse_id conn_id
    rw [m1, m2, m3, m4]
  have hne : ¬ conn_id a = conn_id b := by
    intro hcc
    have h0 : conn_id a = reverse_id a := by
      rw [rab]
      exact hcc
    rcases uniq a ha a ha h0 with ⟨-, h⟩ | ⟨h, -⟩
    · exact hab h
    · exact hab h
  have inner_a : df.filter (fun y => conn_id a == reverse_id y)
      = df.filter (fun y => y == b) := by
    apply List.filter_congr
    intro y hy
    rw [Bool.eq_iff_iff]
    simp only [beq_iff_eq]
    constructor
    · intro h
      rcases uniq a ha y hy h with ⟨-, h2⟩ | ⟨h2, -⟩
      · exact h2
      · exact absurd h2 hab
    · intro h
      rw [h, rba]
  have inner_b : df.filter (fun y => conn_id b == reverse_id y)
      = df.filter (fun y => y == a) := by
    apply List.filter_congr
    intro y hy
    rw [Bool.eq_iff_iff]
    simp only [beq_iff_eq]
    constructor
    · intro h
      rcases uniq b hb y hy h with ⟨h2, -⟩ | ⟨-, h2⟩
      · exact absurd h2.symm hab
      · exact h2
    · intro h
      rw [h, rab]
  have inner_len_a : (df.filter (fun y => conn_id a == reverse_id y)).length
      = 1 := by
    rw [inner_a]
    calc (df.filter (fun y => y == b)).length
        = List.countP (fun y => y == b) df :=
          (List.countP_eq_length_filter _ _).symm
      _ = df.count b := rfl
      _ = 1 := hcb
  have inner_len_b : (df.filter (fun y => conn_id b == reverse_id y)).length
      = 1 := by
    rw [inner_b]
    calc (df.filter (fun y => y == a)).length
        = List.countP (fun y => y == a) df :=
          (List.countP_eq_length_filter _ _).symm
      _ = df.count a := rfl
      _ = 1 := hca
  have inner_nil : ∀ x ∈ df, ¬ x = a → ¬ x = b →
      df.filter (fun y => conn_id x == reverse_id y) = [] := by
    intro x hx hxa hxb
    rw [List.filter_eq_nil_iff]
    intro y hy hbeq
    rcases uniq x hx y hy (beq_iff_eq.mp hbeq) with ⟨h2, -⟩ | ⟨h2, -⟩
    · exact hxa h2
    · exact hxb h2
  have hflow_a : conn_id a = flow_id a ↔ conn_id a < conn_id b := by
    unfold flow_id
    rw [rab]
    constructor
    · intro h
      by_cases hlt : conn_id a < conn_id b
      · exact hlt
      · rw [if_neg hlt] at h
        exact absurd h hne
    · intro hlt
      rw [if_pos hlt]
  have hflow_b : conn_id b = flow_id b ↔ conn_id b < conn_id a := by
    unfold flow_id
    rw [rba]
    constructor
    · intro h
      by_cases hlt : conn_id b < conn_id a
      · exact hlt
      · rw [if_neg hlt] at h
        exact absurd h (fun hh => hne hh.symm)
    · intro hlt
      rw [if_pos hlt]
  have hhead : ∀ x : ConnRecord,
      (((df.filter (fun y => conn_id x == reverse_id y)).map
          (fun y => (x, y))).filter
        (fun p => conn_id p.1 == flow_id p.1)).length
      = if conn_id x = flow_id x
        then (df.filter (fun y => conn_id x == reverse_id y)).length
        else 0 := by
    intro x
    rw [List.filter_map, List.length_map]
    have hpred : ((fun p : ConnRecord × ConnRecord => conn_id p.1 == flow_id p.1)
        ∘ (fun y : ConnRecord => (x, y)))
        = (fun y : ConnRecord => conn_id x == flow_id x) := rfl
    rw [hpred]
    by_cases hc : conn_id x = flow_id x
    · have htrue : (conn_id x == flow_id x) = true := beq_iff_eq.mpr hc
      rw [if_pos hc]
      simp only [htrue]
      simp
    · have hfalse : (conn_id x == flow_id x) = false :=
        beq_eq_false_iff_ne.mpr hc
      rw [if_neg hc]
      simp only [hfalse]
      simp
  have hval : ∀ x ∈ df,
      (if conn_id x = flow_id x
        then (df.filter (fun y => conn_id x == reverse_id y)).length
        else 0)
      = if x = (if conn_id a < conn_id b then a else b) then 1 else 0 := by
    intro x hx
    by_cases hxa : x = a
    · rw [hxa]
      by_cases hlt : conn_id a < conn_id b
      · rw [if_pos (hflow_a.mpr hlt), inner_len_a, if_pos hlt, if_pos rfl]
      · have hcond : ¬ conn_id a = flow_id a := fun h => hlt (hflow_a.mp h)
        rw [if_neg hcond, if_neg hlt, if_neg hab]
    · by_cases hxb : x = b
      · rw [hxb]
        by_cases hlt : conn_id b < conn_id a
        · have hlt2 : ¬ conn_id a < conn_id b := asymm hlt
          rw [if_pos (hflow_b.mpr hlt), inner_len_b, if_neg hlt2, if_pos rfl]
        · have hcond : ¬ conn_id b = flow_id b := fun h => hlt (hflow_b.mp h)
          rw [if_neg hcond]
          by_cases hlt2 : conn_id a < conn_id b
          · rw [if_pos hlt2, if_neg (fun h => hab h.symm)]
          · exact absurd (le_antisymm (not_lt.mp hlt) (not_lt.mp hlt2)) hne
      · rw [inner_nil x hx hxa hxb]
        have hno : ¬ x = (if conn_id a < conn_id b then a else b) := by
          by_cases hlt : conn_id a < conn_id b
          · rw [if_pos hlt]
            exact hxa
          · rw [if_neg hlt]
            exact hxb
        rw [if_neg hno]
        simp
  have main : ∀ l : List ConnRecord, (∀ x ∈ l, x ∈ df) →
      ((l.flatMap (fun x =>
          (df.filter (fun y => conn_id x == reverse_id y)).map
            (fun y => (x, y)))).filter
        (fun p => conn_id p.1 == flow_id p.1)).length
      = l.count (if conn_id a < conn_id b then a else b) := by
    intro l
    induction l with
    | nil =>
      intro h0
      rfl
    | cons x l ih =>
      intro hsub
      rw [List.flatMap_cons, List.filter_append, List.length_append]
      rw [hhead x, hval x (hsub x (List.mem_cons_self x l)),
        ih (fun z hz => hsub z (List.mem_cons_of_mem x hz)), List.count_cons]
      by_cases h : x = (if conn_id a < conn_id b then a else b) <;>
        simp [h, Nat.add_comm]
  have hw : df.count (if conn_id a < conn_id b then a else b) = 1 := by
    by_cases hlt : conn_id a < conn_id b
    · rw [if_pos hlt]
      exact hca
    · rw [if_neg hlt]
      exact hcb
  have hlen : (retainedPairs df).length = 1 := by
    unfold retainedPairs mergedRows
    rw [main df (fun x hx => hx), hw]
  refine ⟨hlen, ?_, ?_, ?_⟩
  · unfold paired_count
    rw [hlen]
  · unfold pairedHistories
    rw [List.length_map]
    exact hlen
  · intro p hp
    unfold retainedPairs mergedRows at hp
    obtain ⟨hm, hcond⟩ := List.mem_filter.mp hp
    obtain ⟨x, hx, hpx⟩ := List.mem_flatMap.mp hm
    obtain ⟨y, hy2, hpe⟩ := List.mem_map.mp hpx
    obtain ⟨hy, hcy⟩ := List.mem_filter.mp hy2
    rcases uniq x hx y hy (beq_iff_eq.mp hcy) with ⟨hxa, -⟩ | ⟨hxb, -⟩
    · have hfst : p.1 = a := by
        rw [← hpe]
        exact hxa
      rw [hfst]
      have hca2 : conn_id a = flow_id a := by
        have hq := beq_iff_eq.mp hcond
        rw [hfst] at hq
        exact hq
      rw [min_eq_left (le_of_lt (hflow_a.mp hca2))]
    · have hfst : p.1 = b := by
        rw [← hpe]
        exact hxb
      rw [hfst]
      have hcb2 : conn_id b = flow_id b := by
        have hq := beq_iff_eq.mp hcond
        rw [hfst] at hq
        exact hq
      rw [min_eq_right (le_of_lt (hflow_b.mp hcb2))]

/-- First leg of a mirror pair of candidates. -/
def recLegA : ConnRecord :=
  ⟨"10.0.0.1", some 1111, "10.0.0.2", some 80, some ("tcp"),
   some ("sadr"), some true, some true, some ("worker-eth0-1")⟩

/-- Second leg of the mirror pair: endpoints exchanged. -/
def recLegB : ConnRecord :=
  ⟨"10.0.0.2", some 80, "10.0.0.1", some 1111, some ("tcp"),
   some ("SADR"), some true, some true, some ("worker-eth1-2")⟩

/-- Witness for C8 at a concrete two-candidate mirror pair. -/
theorem pairing_mirror_pair_witness :
    (retainedPairs [recLegA, recLegB]).length = 1 ∧
      paired_count [recLegA, recLegB] = 2 ∧
      (pairedHistories [recLegA, recLegB]).length = 1 ∧
      ∀ p ∈ retainedPairs [recLegA, recLegB],
        conn_id p.1 = min (conn_id recLegA) (conn_id recLegB) :=
  pairing_mirror_pair [recLegA, recLegB] recLegA recLegB
    (by decide) (by decide) (by decide) rfl rfl rfl rfl
    (by decide) (by decide) (by decide)

/-- A half-duplex candidate set seen by one NIC (`eth0`) under two capture
processes (`1` and `2`). -/
def candSet9 : List ConnRecord :=
  [⟨"10.0.0.1", some 1111, "10.0.0.2", some 80, some ("tcp"),
    some ("sa"), some true, some true, some ("worker-eth0-1")⟩,
   ⟨"10.0.0.3", some 2222, "10.0.0.4", some 443, some ("tcp"),
    some ("SA"), some true, some true, some ("worker-eth0-2")⟩]

/-- C9: the per-process even-split denominator uses the column count of
the cross-tab AFTER the `Total` column was appended, i.e.
`distinct_nics × (distinct_processes + 1)`, not
`distinct_nics × distinct_processes`: with 1 NIC, 2 processes and 2
candidates the code reports `2/3` where the spec formula gives `1`. -/
theorem evenSplitByProcess_counts_total_column :
    (distinctNics candSet9).length = 1 ∧
      (distinctProcs candSet9).length = 2 ∧
      candSet9.length = 2 ∧
      evenSplitByProcess candSet9 = 2 / 3 ∧
      ¬ evenSplitByProcess candSet9
        = zero_division_ok (candSet9.length : ℚ)
          ((((distinctNics candSet9).length
            * (distinctProcs candSet9).length : ℕ)) : ℚ) := by
  have hn : (distinctNics candSet9).length = 1 := by decide
  have hp : (distinctProcs candSet9).length = 2 := by decide
  have hl : candSet9.length = 2 := by decide
  have hshape : nics_df_shape candSet9 = (1, 3) := by
    unfold nics_df_shape
    rw [hn, hp]
  have hval : evenSplitByProcess candSet9 = 2 / 3 := by
    unfold evenSplitByProcess
    rw [hshape, hl]
    norm_num [zero_division_ok]
  refine ⟨hn, hp, hl, hval, ?_⟩
  rw [hval, hn, hp, hl]
  norm_num [zero_division_ok]
